import Mathlib

/-!
A shallow embedding of the oglelib repository's core code
(`calculations.py`, `filegrabber.py`, `event.py`).  Python floats are
modelled as rationals, except where the code calls `math.sqrt` / `math.log10`,
where the real numbers are used.  Python exceptions are modelled with
`Except PyErr`; the filesystem and the FTP link are explicit state.  The
Lomb-Scargle spectrum returned by `scipy.signal.lombscargle` is numerical
input to the code under study and is abstracted as an arbitrary power list
over the fixed frequency grid.
-/

/-- Python runtime failures that the embedded code can raise. -/
inductive PyErr where
  | zeroDivision
  | unboundLocal
  | attributeError
  | noResponse
  | exception (msg : String)
deriving DecidableEq

/-- Equality of embedded Python results is decidable, so concrete runs can
be checked by evaluation. -/
instance instDecEqExcept {α β : Type} [DecidableEq α] [DecidableEq β] :
    DecidableEq (Except α β)
  | .ok a, .ok b => decidable_of_iff (a = b) (by simp)
  | .ok _, .error _ => isFalse (by simp)
  | .error _, .ok _ => isFalse (by simp)
  | .error a, .error b => decidable_of_iff (a = b) (by simp)

/-! ## calculations.py : Lightcurve -/

/-- `calculations.Lightcurve`: the five physical model parameters.  The
stored `fbl` is the value after `__validate_fbl` clamping (see
`Lightcurve.make`). -/
structure Lightcurve where
  Ibl : ℝ
  umin : ℝ
  tE : ℝ
  t0 : ℝ
  fbl : ℝ

open scoped Classical in
/-- `Lightcurve.__validate_fbl`: clamp the blending fraction into `[0, 1]`. -/
noncomputable def validate_fbl (fbl : ℝ) : ℝ :=
  if 1 < fbl then 1 else if fbl < 0 then 0 else fbl

/-- `Lightcurve.__init__`: store the parameters, clamping `fbl`. -/
noncomputable def Lightcurve.make (Ibl umin tE t0 fbl : ℝ) : Lightcurve :=
  ⟨Ibl, umin, tE, t0, validate_fbl fbl⟩

open scoped Classical in
/-- `Lightcurve.mag`: magnitude of the lens at time `t`.  Python's `/` raises
`ZeroDivisionError` on a zero divisor and `math.log10` raises `ValueError`
on a non-positive argument, hence the `Option` result. -/
noncomputable def Lightcurve.mag (lc : Lightcurve) (t : ℝ) : Option ℝ :=
  if lc.tE = 0 then none else
  let u : ℝ := Real.sqrt (lc.umin ^ 2 + ((t - lc.t0) / lc.tE) ^ 2)
  if u * Real.sqrt (u ^ 2 + 4) = 0 then none else
  let fr : ℝ := (u ^ 2 + 2) / (u * Real.sqrt (u ^ 2 + 4))
  let frb : ℝ := (fr - 1) * lc.fbl + 1
  if frb ≤ 0 then none else
  some (-2.5 * Real.logb 10 frb + lc.Ibl)

/-! ## calculations.py : reduced_chi_square -/

/-- Round-half-even on `ℚ`, Python's `round` applied to an exact value. -/
def roundHalfEven (x : ℚ) : ℤ :=
  if x - ⌊x⌋ < 1 / 2 then ⌊x⌋
  else if 1 / 2 < x - ⌊x⌋ then ⌊x⌋ + 1
  else if Even ⌊x⌋ then ⌊x⌋ else ⌊x⌋ + 1

/-- Python `round(x, d)` for `d` decimal digits. -/
def pyRound (x : ℚ) (d : ℕ) : ℚ :=
  (roundHalfEven (x * 10 ^ d) : ℚ) / 10 ^ d

/-- One iteration of the `reduced_chi_square` accumulation loop: the addend
`(Oi - Ci)² / σᵢ²` raises `ZeroDivisionError` when the variance `σᵢ²` is
zero. -/
def chiSquareStep (func : ℚ → ℚ) (acc : Except PyErr ℚ) (dp : ℚ × ℚ × ℚ) :
    Except PyErr ℚ :=
  acc >>= fun thesum =>
    if dp.2.2 ^ 2 = 0 then .error .zeroDivision
    else .ok (thesum + (dp.2.1 - func dp.1) ^ 2 / dp.2.2 ^ 2)

/-- `calculations.reduced_chi_square`: accumulate the normalized squared
residuals over the datapoints `(t, I, Ierr)` and divide by
`len(datapoints) - Nu`; the final value is rounded to three decimals.
Python raises `ZeroDivisionError` when the divisor is zero. -/
def reduced_chi_square (datapoints : List (ℚ × ℚ × ℚ)) (func : ℚ → ℚ) (Nu : ℤ) :
    Except PyErr ℚ :=
  datapoints.foldl (chiSquareStep func) (.ok 0) >>= fun thesum =>
    if (((datapoints.length : ℤ) - Nu : ℤ) : ℚ) = 0 then .error .zeroDivision
    else .ok (pyRound (thesum / (((datapoints.length : ℤ) - Nu : ℤ) : ℚ)) 3)

/-! ## calculations.py : pgram -/

/-- `numpy.linspace a b n` (with endpoint): `n` points from `a` to `b`. -/
def linspace (a b : ℚ) (n : ℕ) : List ℚ :=
  (List.range n).map fun (i : ℕ) => a + (i : ℚ) * ((b - a) / ((n : ℚ) - 1))

/-- The fixed angular-frequency grid of `pgram`:
`np.linspace(0.0001, 0.03, 10000)`. -/
def freqGrid : List ℚ := linspace (1 / 10000) (3 / 100) 10000

/-- `numpy.max` on a list (the empty case, on which numpy raises, is given
the junk value `0`; every use below is on a nonempty list). -/
def npmax : List ℚ → ℚ
  | [] => 0
  | h :: t => t.foldl max h

/-- `pgram[np.where(freq > c)]`: the powers at frequencies above `c`,
in grid order. -/
def bandPowers (freq pg : List ℚ) (c : ℚ) : List ℚ :=
  (freq.zip pg).filterMap fun fp => if c < fp.1 then some fp.2 else none

/-- `maxpgram`: the reported peak power, `np.max(pgram[np.where(freq > 0.01)])`. -/
def maxpgramOf (pg : List ℚ) : ℚ := npmax (bandPowers freqGrid pg (1 / 100))

/-- `freq_at_maxgram`: the frequency at the first grid index whose power
equals the full-grid maximum, `freq[np.where(np.max(pgram) == pgram)][0]`. -/
def freq_at_maxgram (pg : List ℚ) : ℚ :=
  freqGrid.getD (pg.findIdx fun x => decide (x = npmax pg)) 0

/-- `parallax_period = 2 * np.pi / freq_at_maxgram`. -/
noncomputable def parallax_period (pg : List ℚ) : ℝ :=
  2 * Real.pi / (freq_at_maxgram pg : ℝ)

/-- `a[i]` indexing on a numpy array, modelled as `List.getD` with junk
default `0` (the loops below only read indices they have bounds-checked). -/
def nth (l : List ℚ) (i : ℕ) : ℚ := l.getD i 0

/-- The `while` loop of `getfwhm`, structural in `j` (the loop only runs
while `j > 0`).  State: indices `i` (walking up) and `j` (walking down),
the two found-flags and the two boundary frequencies.  In the source the
tested indices are `j`, `j-1`, `i`, `i+1`; here the current down-index is
`j+1`, so they appear as `j+1`, `j`, `i`, `i+1`. -/
def fwhmGo (pg fr : List ℚ) (half : ℚ) :
    ℕ → ℕ → Bool → Bool → ℚ → ℚ → Bool × Bool × ℚ × ℚ
  | _, 0, lf, hf, lo, hi => (lf, hf, lo, hi)
  | i, j + 1, lf, hf, lo, hi =>
    if i + 1 < pg.length then
      let dl : Bool := !lf && decide (half ≤ nth pg (j + 1))
        && decide (nth pg j < half)
      let lf2 := lf || dl
      let lo2 := if dl then nth fr j else lo
      let dh : Bool := !hf && decide (half ≤ nth pg i)
        && decide (nth pg (i + 1) < half)
      let hf2 := hf || dh
      let hi2 := if dh then nth fr (i + 1) else hi
      if lf2 && hf2 then (lf2, hf2, lo2, hi2)
      else fwhmGo pg fr half (i + 1) j lf2 hf2 lo2 hi2
    else (lf, hf, lo, hi)

/-- `getfwhm` (inner function of `pgram`): start both walkers at the first
grid index whose power equals `maxpgram`; report `higher - lower` when both
half-power boundaries were found, and the sentinel `0.0` otherwise. -/
def getfwhm (fr pg : List ℚ) (maxp : ℚ) : ℚ :=
  let i0 := pg.findIdx fun x => decide (x = maxp)
  let r := fwhmGo pg fr (maxp / 2) i0 i0 false false 0 0
  if r.1 && r.2.1 then r.2.2.2 - r.2.2.1 else 0

/-! ## Specification-side definitions (from the spec's words) -/

/-- Modelled from the words of claim C6: walk outward in lock-step from the
peak index; on each side the boundary is the first grid point whose power
has dropped below half the peak power; stop at an index bound. -/
def boundaryWalk (pg fr : List ℚ) (half : ℚ) :
    ℕ → ℕ → Option ℚ → Option ℚ → Option ℚ × Option ℚ
  | _, 0, lo, hi => (lo, hi)
  | i, j + 1, lo, hi =>
    if i + 1 < pg.length then
      let lo2 := if lo = none ∧ nth pg j < half then some (nth fr j) else lo
      let hi2 := if hi = none ∧ nth pg (i + 1) < half then some (nth fr (i + 1))
        else hi
      if lo2.isSome ∧ hi2.isSome then (lo2, hi2)
      else boundaryWalk pg fr half (i + 1) j lo2 hi2
    else (lo, hi)

/-- Modelled from the words of claim C6: the FWHM is the difference of the
two lock-step boundary frequencies, or the sentinel zero when a boundary is
missing. -/
def fwhmSpec (fr pg : List ℚ) (maxp : ℚ) : ℚ :=
  let i0 := pg.findIdx fun x => decide (x = maxp)
  match boundaryWalk pg fr (maxp / 2) i0 i0 none none with
  | (some lo, some hi) => hi - lo
  | _ => 0

/-- Modelled from the words of claim C1: the peak-frequency lookup as the
claim states it, scanning the full grid for the first index whose power
equals the restricted-band peak power. -/
def claimedFreqAt (pg : List ℚ) : ℚ :=
  freqGrid.getD (pg.findIdx fun x => decide (x = maxpgramOf pg)) 0

/-! ## filegrabber.py : generations and paths -/

/-- Python `str.zfill` for unsigned strings: left-pad with zeros to width `w`. -/
def zfill (s : String) (w : ℕ) : String :=
  if s.length < w then String.mk (List.replicate (w - s.length) '0') ++ s else s

/-- `filegrabber.get_ogle_version`: archive generation from the year. -/
def get_ogle_version (year : ℤ) : Except PyErr ℕ :=
  if 1998 ≤ year ∧ year ≤ 2000 then .ok 2
  else if 2002 ≤ year ∧ year ≤ 2009 then .ok 3
  else if 2011 ≤ year ∧ year ≤ 2019 then .ok 4
  else .error (.exception "Unsupported year.")

/-- `filegrabber.padded_n`: zero-pad the event number with the generation's
width.  The final branch is unreachable (`get_ogle_version` only returns
2, 3 or 4); in the source `nwidth` would there be unbound. -/
def padded_n (n : ℕ) (year : ℤ) : Except PyErr String :=
  get_ogle_version year >>= fun version =>
    if version = 4 then .ok (zfill (toString n) 4)
    else if version = 3 then .ok (zfill (toString n) 3)
    else if version = 2 then .ok (zfill (toString n) 2)
    else .error .unboundLocal

/-! ## filegrabber.py : RemoteDatFile.get_contents -/

/-- One scripted outcome of an `FTP.retrlines` call. -/
inductive FtpAttempt where
  | ok (lines : List String)
  | permErr (code : ℕ)
  | tempErr
deriving DecidableEq

/-- Python `str.lower()`: lower-case each character (written on the
character list so that concrete instances evaluate). -/
def pyLower (s : String) : String := String.mk (s.data.map Char.toLower)

/-- Python `str.strip()`: drop whitespace from both ends (written on the
character list so that concrete instances evaluate). -/
def pyStrip (s : String) : String :=
  String.mk
    (((s.data.dropWhile Char.isWhitespace).reverse.dropWhile
      Char.isWhitespace).reverse)

/-- `DatStream`: each retrieved line is written with a newline appended and
`getvalue` strips the final string. -/
def datStreamValue (lines : List String) : String :=
  pyStrip (String.mk (lines.flatMap fun s => s.data ++ ['\n']))

/-- `RemoteDatFile.get_contents`, run against a script of `retrlines`
outcomes (one per attempt).  On `error_perm` the code raises with a message
depending on the code (550 / 530; any other leaves `msg` unbound).  On
`error_temp` / `BrokenPipeError` it reconnects and calls itself on the rest
of the script, but discards the recursive result, so a successful retry
falls through to `return filecontents` with `filecontents` unbound.  An
exhausted script is modelled as `noResponse`. -/
def get_contents (filepath : String) : List FtpAttempt → Except PyErr String
  | [] => .error .noResponse
  | .ok lines :: _ => .ok (datStreamValue lines)
  | .permErr code :: _ =>
    if code = 550 then .error (.exception ("url: " ++ filepath ++ " is invalid"))
    else if code = 530 then .error (.exception "ftp is not enabled")
    else .error .unboundLocal
  | .tempErr :: rest =>
    match get_contents filepath rest with
    | .ok _ => .error .unboundLocal
    | .error e => .error e

/-! ## filegrabber.py : FileGrabber -/

/-- The filesystem: a set of existing directories and a path-to-contents
association (most recent write first). -/
structure FS where
  dirs : List String
  files : List (String × String)

/-- Read a file's contents, `none` when absent. -/
def FS.read (fs : FS) (p : String) : Option String := fs.files.lookup p

/-- `os.path.isfile`. -/
def FS.isfile (fs : FS) (p : String) : Bool := (fs.read p).isSome

/-- `os.path.exists` / `os.path.isdir` for directories. -/
def FS.isdir (fs : FS) (d : String) : Bool := fs.dirs.contains d

/-- Write (or shadow) a file. -/
def FS.write (fs : FS) (p c : String) : FS := ⟨fs.dirs, (p, c) :: fs.files⟩

/-- `os.makedirs(d, exist_ok=True)`. -/
def FS.makedirs (fs : FS) (d : String) : FS := ⟨d :: fs.dirs, fs.files⟩

/-- `os.path.dirname`. -/
def dirname (p : String) : String :=
  String.intercalate "/" (p.splitOn "/").dropLast

/-- `filegrabber.FileGrabber` state: the verified data directory and, only
when `ftp_enabled` was set, the `ftpclient` attribute (modelled as the
per-path script of FTP outcomes). -/
structure FileGrabber where
  datadir : Option String
  ftpclient : Option (String → List FtpAttempt)

/-- `FileGrabber.__verify_datadir`: default to the `OGLEDATADIR` environment
variable when no directory is given; an explicit directory must exist, and a
trailing-slash directory is replaced by its last character (the source's
`datadir[-1]`). -/
def verify_datadir (fs : FS) (env : Option String) :
    Option String → Except PyErr (Option String)
  | none => .ok env
  | some d =>
    if fs.isdir d then
      .ok (some (if d.endsWith "/" then d.takeRight 1 else d))
    else .error (.exception "Invalid data directory.")

/-- `FileGrabber.__init__`: verify the data directory; only when
`ftp_enabled` is true is the `ftpclient` attribute created. -/
def FileGrabber.init (fs : FS) (env : Option String)
    (net : String → List FtpAttempt) (datadir : Option String)
    (ftp_enabled : Bool) : Except PyErr FileGrabber :=
  (verify_datadir fs env datadir).map fun dd =>
    ⟨dd, if ftp_enabled then some net else none⟩

/-- The `RemoteDatFile` remote path
`/ogle/ogle{version}/ews/{year}/{field}-{n}/{dat_type}.dat`. -/
def remote_filepath (year : ℤ) (n : ℕ) (field dat_type : String) :
    Except PyErr String :=
  padded_n n year >>= fun pn =>
  get_ogle_version year >>= fun v =>
  .ok ("/ogle/ogle" ++ toString v ++ "/ews/" ++ toString year ++ "/" ++
    field ++ "-" ++ pn ++ "/" ++ dat_type ++ ".dat")

/-- `FileGrabber.__get_local_filepath`:
`{datadir}/{year}/{field.lower()}-{padded_n}/{dat_type}.dat`. -/
def local_filepath (datadir : String) (year : ℤ) (n : ℕ) (field dat_type : String) :
    Except PyErr String :=
  padded_n n year >>= fun pn =>
  .ok (datadir ++ "/" ++ toString year ++ "/" ++ pyLower field ++ "-" ++ pn ++
    "/" ++ dat_type ++ ".dat")

/-- Access `self.ftpclient` and run `RemoteDatFile.get_contents` against it:
`AttributeError` when the grabber was constructed with `ftp_enabled=False`,
since `__init__` then never created the attribute. -/
def fetchRemote (g : FileGrabber) (rp : String) : Except PyErr String :=
  match g.ftpclient with
  | none => .error .attributeError
  | some net => get_contents rp (net rp)

/-- `FileGrabber.get_datfile`: local cache first, remote otherwise.  The
result pairs the (stripped, per `DatFile.__init__`) contents with the list
of remote paths actually fetched over the network. -/
def get_datfile (g : FileGrabber) (fs : FS) (year : ℤ) (n : ℕ)
    (field dat_type : String) : Except PyErr (String × List String) :=
  remote_filepath year n field dat_type >>= fun rp =>
  match g.datadir with
  | some d =>
    local_filepath d year n field dat_type >>= fun lp =>
    match fs.read lp with
    | some c => .ok (pyStrip c, [])
    | none => (fetchRemote g rp).map fun c => (pyStrip c, [rp])
  | none => (fetchRemote g rp).map fun c => (pyStrip c, [rp])

/-- `FileGrabber.__force_write`: do nothing when the file exists (outcome 0),
else create the event directory if needed and write (outcome 1). -/
def force_write (fs : FS) (filepath s : String) : FS × ℕ :=
  if fs.isfile filepath then (fs, 0)
  else
    let event_dir := dirname filepath
    let fs1 := if fs.isdir event_dir then fs else fs.makedirs event_dir
    (fs1.write filepath s, 1)

/-- The outcome message `save` prints for a document. -/
def outcomeMsg (o : ℕ) : String := if o = 0 then "exists" else "saved"

/-- `FileGrabber.save`: for `phot` then `params`, fetch via `get_datfile`
and persist via `__force_write`; report the outcome for each document.  The
result is the final filesystem, the two outcome messages and the list of
remote paths fetched. -/
def save (g : FileGrabber) (fs : FS) (year : ℤ) (n : ℕ) (field : String) :
    Except PyErr (FS × List String × List String) :=
  match g.datadir with
  | none => .error (.exception "No data directory provided.")
  | some d =>
    get_datfile g fs year n field "phot" >>= fun r1 =>
    local_filepath d year n field "phot" >>= fun lp1 =>
    let w1 := force_write fs lp1 r1.1
    get_datfile g w1.1 year n field "params" >>= fun r2 =>
    local_filepath d year n field "params" >>= fun lp2 =>
    let w2 := force_write w1.1 lp2 r2.1
    .ok (w2.1, [outcomeMsg w1.2, outcomeMsg w2.2], r1.2 ++ r2.2)

/-- `Event.__init__`'s construction of its grabber: `FileGrabber(defaultpath)`
with `defaultpath` the `OGLEDATADIR` environment variable (or `None`), and
`ftp_enabled` left at its default `False`. -/
def event_default_grabber (fs : FS) (env : Option String)
    (net : String → List FtpAttempt) : Except PyErr FileGrabber :=
  FileGrabber.init fs env net env false

/-! ## Helper lemmas : list maxima and the frequency grid -/

theorem init_le_foldl_max (h : ℚ) (t : List ℚ) : h ≤ t.foldl max h := by
  induction t generalizing h with
  | nil => exact le_refl h
  | cons a t ih =>
    simp only [List.foldl_cons]
    exact le_trans (le_max_left h a) (ih (max h a))

theorem foldl_max_mem (h : ℚ) (t : List ℚ) : t.foldl max h ∈ h :: t := by
  induction t generalizing h with
  | nil => simp
  | cons a t ih =>
    simp only [List.foldl_cons]
    rcases List.mem_cons.mp (ih (max h a)) with h1 | h1
    · rw [h1]
      rcases max_choice h a with h2 | h2 <;> rw [h2] <;> simp
    · exact List.mem_cons_of_mem _ (List.mem_cons_of_mem _ h1)

theorem le_foldl_max (h x : ℚ) (t : List ℚ) (hx : x ∈ h :: t) : x ≤ t.foldl max h := by
  induction t generalizing h with
  | nil =>
    simp only [List.mem_singleton] at hx
    simp [hx]
  | cons a t ih =>
    simp only [List.foldl_cons]
    rcases List.mem_cons.mp hx with rfl | hx'
    · exact le_trans (le_max_left x a) (init_le_foldl_max _ t)
    · rcases List.mem_cons.mp hx' with rfl | hx''
      · exact le_trans (le_max_right h x) (init_le_foldl_max _ t)
      · exact ih (max h a) (List.mem_cons_of_mem _ hx'')

theorem foldl_max_of_le (h : ℚ) (t : List ℚ) (hall : ∀ x ∈ t, x ≤ h) :
    t.foldl max h = h := by
  induction t with
  | nil => rfl
  | cons a t ih =>
    simp only [List.foldl_cons, max_eq_left (hall a (by simp))]
    exact ih fun x hx => hall x (by simp [hx])

theorem npmax_mem (l : List ℚ) (h : l ≠ []) : npmax l ∈ l := by
  cases l with
  | nil => simp at h
  | cons a t => simpa [npmax] using foldl_max_mem a t

theorem le_npmax (l : List ℚ) (x : ℚ) (hx : x ∈ l) : x ≤ npmax l := by
  cases l with
  | nil => simp at hx
  | cons a t => exact le_foldl_max a x t hx

theorem npmax_of_all_eq (l : List ℚ) (c : ℚ) (hne : l ≠ [])
    (hall : ∀ x ∈ l, x = c) : npmax l = c :=
  hall _ (npmax_mem l hne)

theorem freqGrid_length : freqGrid.length = 10000 := by
  rw [freqGrid, linspace, List.length_map, List.length_range]

theorem freqGrid_getD (i : ℕ) (h : i < 10000) :
    freqGrid.getD i 0 = (9999 + 299 * i) / 99990000 := by
  have h1 : freqGrid.getD i 0
      = 1 / 10000 + (i : ℚ) * ((3 / 100 - 1 / 10000) / ((10000 : ℚ) - 1)) := by
    rw [freqGrid, linspace, List.getD_eq_getElem?_getD,
      List.getElem?_map _ _ i, List.getElem?_range h]
    rfl
  rw [h1, show ((3 : ℚ) / 100 - 1 / 10000) / ((10000 : ℚ) - 1) = 299 / 99990000
    from by norm_num]
  field_simp
  ring

theorem freqGrid_band (i : ℕ) (h : i < 10000) :
    1 / 100 < freqGrid.getD i 0 ↔ 3311 ≤ i := by
  rw [freqGrid_getD i h, lt_div_iff₀ (by norm_num : (0 : ℚ) < 99990000)]
  rw [show (1 : ℚ) / 100 * 99990000 = 999900 from by norm_num]
  constructor
  · intro h1
    by_contra h2
    push_neg at h2
    have : (i : ℚ) ≤ 3310 := by exact_mod_cast Nat.le_of_lt_succ h2
    linarith
  · intro h1
    have : (3311 : ℚ) ≤ (i : ℚ) := by exact_mod_cast h1
    linarith

theorem mem_bandPowers_gen (freq pg : List ℚ) (c x : ℚ) :
    x ∈ bandPowers freq pg c ↔
      ∃ i, i < freq.length ∧ i < pg.length ∧ c < freq.getD i 0 ∧ pg.getD i 0 = x := by
  unfold bandPowers
  rw [List.mem_filterMap]
  constructor
  · rintro ⟨fp, hmem, hx⟩
    rw [List.mem_iff_getElem] at hmem
    obtain ⟨i, hi, hget⟩ := hmem
    have hif : i < freq.length :=
      lt_of_lt_of_le hi (by rw [List.length_zip]; exact min_le_left _ _)
    have hip : i < pg.length :=
      lt_of_lt_of_le hi (by rw [List.length_zip]; exact min_le_right _ _)
    have hfp : fp = (freq[i], pg[i]) := by rw [← hget, List.getElem_zip]
    subst hfp
    dsimp only at hx
    by_cases hband : c < freq[i]
    · rw [if_pos hband] at hx
      obtain rfl : pg[i] = x := Option.some.inj hx
      refine ⟨i, hif, hip, ?_, List.getD_eq_getElem _ _ hip⟩
      rw [List.getD_eq_getElem _ _ hif]; exact hband
    · rw [if_neg hband] at hx
      exact absurd hx (by simp)
  · rintro ⟨i, hif, hip, hband, hx⟩
    have hi : i < (freq.zip pg).length := by
      rw [List.length_zip]; exact lt_min hif hip
    have hband' : c < freq[i] := by rwa [List.getD_eq_getElem _ _ hif] at hband
    refine ⟨(freq[i], pg[i]), ?_, ?_⟩
    · rw [List.mem_iff_getElem]
      exact ⟨i, hi, List.getElem_zip⟩
    · dsimp only
      rw [if_pos hband']
      rw [List.getD_eq_getElem _ _ hip] at hx
      rw [hx]

theorem mem_bandPowers {pg : List ℚ} (hl : pg.length = 10000) {x : ℚ} :
    x ∈ bandPowers freqGrid pg (1 / 100) ↔
      ∃ i, 3311 ≤ i ∧ i < 10000 ∧ pg.getD i 0 = x := by
  rw [mem_bandPowers_gen]
  constructor
  · rintro ⟨i, hif, hip, hband, hx⟩
    have hi' : i < 10000 := by rwa [freqGrid_length] at hif
    exact ⟨i, (freqGrid_band i hi').mp hband, hi', hx⟩
  · rintro ⟨i, h3311, hi', hx⟩
    exact ⟨i, by rw [freqGrid_length]; exact hi', by rw [hl]; exact hi',
      (freqGrid_band i hi').mpr h3311, hx⟩

/-! ## C1 : periodogram peak power, peak frequency, period -/

/-- C1 (amended): for every power spectrum over the 10000-point grid, the
reported peak power `maxpgram` is the maximum power over grid frequencies
strictly above the floor 0.01; the reported peak frequency is the grid
frequency at the first index at which the power attains its full-grid
(unrestricted) maximum; and the derived period is `2π` divided by that
reported peak frequency. -/
theorem C1_pgram_peak (pg : List ℚ) (hl : pg.length = 10000) :
    ((∃ i, i < 10000 ∧ 1 / 100 < freqGrid.getD i 0 ∧ pg.getD i 0 = maxpgramOf pg) ∧
      (∀ i, i < 10000 → 1 / 100 < freqGrid.getD i 0 → pg.getD i 0 ≤ maxpgramOf pg)) ∧
    (∃ i0, i0 < 10000 ∧ freq_at_maxgram pg = freqGrid.getD i0 0 ∧
      (∀ j, j < 10000 → pg.getD j 0 ≤ pg.getD i0 0) ∧
      (∀ j, j < i0 → pg.getD j 0 < pg.getD i0 0)) ∧
    parallax_period pg = 2 * Real.pi / (freq_at_maxgram pg : ℝ) := by
  have hne : pg ≠ [] := by
    intro hh; rw [hh] at hl; simp at hl
  refine ⟨⟨?_, ?_⟩, ?_, rfl⟩
  · -- the restricted maximum is attained in the band
    have hb3311 : pg.getD 3311 0 ∈ bandPowers freqGrid pg (1 / 100) :=
      (mem_bandPowers hl).mpr ⟨3311, le_refl _, by norm_num, rfl⟩
    have hbne : bandPowers freqGrid pg (1 / 100) ≠ [] :=
      List.ne_nil_of_mem hb3311
    have hmem : maxpgramOf pg ∈ bandPowers freqGrid pg (1 / 100) :=
      npmax_mem _ hbne
    obtain ⟨i, h3311, hi, hx⟩ := (mem_bandPowers hl).mp hmem
    exact ⟨i, hi, (freqGrid_band i hi).mpr h3311, hx⟩
  · -- the restricted maximum bounds every band power
    intro i hi hband
    exact le_npmax _ _ ((mem_bandPowers hl).mpr
      ⟨i, (freqGrid_band i hi).mp hband, hi, rfl⟩)
  · -- the reported frequency sits at the first full-grid argmax
    have hfind : (pg.findIdx fun x => decide (x = npmax pg)) < pg.length :=
      List.findIdx_lt_length_of_exists ⟨npmax pg, npmax_mem pg hne, by simp⟩
    refine ⟨pg.findIdx fun x => decide (x = npmax pg), by rwa [hl] at hfind,
      rfl, ?_, ?_⟩
    · intro j hj
      have hjp : j < pg.length := by rw [hl]; exact hj
      have hval : pg.getD (pg.findIdx fun x => decide (x = npmax pg)) 0 = npmax pg := by
        rw [List.getD_eq_getElem _ _ hfind]
        have := List.findIdx_getElem (p := fun x => decide (x = npmax pg)) (w := hfind)
        exact of_decide_eq_true this
      rw [hval, List.getD_eq_getElem _ _ hjp]
      exact le_npmax pg _ (List.getElem_mem hjp)
    · intro j hj
      have hjp : j < pg.length := lt_trans hj hfind
      have hval : pg.getD (pg.findIdx fun x => decide (x = npmax pg)) 0 = npmax pg := by
        rw [List.getD_eq_getElem _ _ hfind]
        have := List.findIdx_getElem (p := fun x => decide (x = npmax pg)) (w := hfind)
        exact of_decide_eq_true this
      have hne' : pg[j] ≠ npmax pg := by
        have := List.not_of_lt_findIdx (p := fun x => decide (x = npmax pg)) hj
        simpa using this
      rw [hval, List.getD_eq_getElem _ _ hjp]
      exact lt_of_le_of_ne (le_npmax pg _ (List.getElem_mem hjp)) hne'

/-- C1 counterexample: on the spectrum `10, 1, 1, …, 1` the full-grid maximum
(10, at grid index 0, frequency 0.0001, below the 0.01 floor) differs from
the restricted-band peak power (1), so the frequency the code reports
(`freq_at_maxgram`, frequency of the full-grid maximum) is not the frequency
at which the power equals the restricted-band peak value as the claim
states (`claimedFreqAt`). -/
theorem C1_counterexample :
    ((10 : ℚ) :: List.replicate 9999 1).length = 10000 ∧
    freq_at_maxgram ((10 : ℚ) :: List.replicate 9999 1) ≠
      claimedFreqAt ((10 : ℚ) :: List.replicate 9999 1) := by
  have hlen : ((10 : ℚ) :: List.replicate 9999 1).length = 10000 := by
    rw [List.length_cons, List.length_replicate]
  refine ⟨hlen, ?_⟩
  have hmax : npmax ((10 : ℚ) :: List.replicate 9999 1) = 10 := by
    show (List.replicate 9999 (1 : ℚ)).foldl max 10 = 10
    exact foldl_max_of_le _ _ fun x hx => by
      rw [List.eq_of_mem_replicate hx]; norm_num
  have hfreq : freq_at_maxgram ((10 : ℚ) :: List.replicate 9999 1) = 1 / 10000 := by
    unfold freq_at_maxgram
    rw [hmax]
    have hidx : (((10 : ℚ) :: List.replicate 9999 1).findIdx
        fun x => decide (x = 10)) = 0 := by
      rw [List.findIdx_cons]
      norm_num
    rw [hidx, freqGrid_getD 0 (by norm_num)]
    norm_num
  have hgetD : ∀ i, 3311 ≤ i → i < 10000 →
      ((10 : ℚ) :: List.replicate 9999 1).getD i 0 = 1 := by
    intro i h3311 hi
    obtain ⟨k, rfl⟩ := Nat.exists_eq_succ_of_ne_zero (by omega : i ≠ 0)
    have hk : k < 9999 := by omega
    have hip : k + 1 < ((10 : ℚ) :: List.replicate 9999 1).length := by
      rw [hlen]; omega
    rw [List.getD_eq_getElem _ _ hip]
    rw [List.getElem_cons_succ]
    exact List.getElem_replicate ..
  have hband1 : maxpgramOf ((10 : ℚ) :: List.replicate 9999 1) = 1 := by
    unfold maxpgramOf
    refine npmax_of_all_eq _ _ ?_ ?_
    · exact List.ne_nil_of_mem ((mem_bandPowers hlen).mpr
        ⟨3311, le_refl _, by norm_num, hgetD 3311 (le_refl _) (by norm_num)⟩)
    · intro x hx
      obtain ⟨i, h3311, hi, hxx⟩ := (mem_bandPowers hlen).mp hx
      rw [← hxx]
      exact hgetD i h3311 hi
  have hclaimed : claimedFreqAt ((10 : ℚ) :: List.replicate 9999 1)
      = 10298 / 99990000 := by
    unfold claimedFreqAt
    rw [hband1]
    have hidx : (((10 : ℚ) :: List.replicate 9999 1).findIdx
        fun x => decide (x = 1)) = 1 := by
      rw [List.findIdx_cons]
      have h10 : (decide ((10 : ℚ) = 1)) = false := by norm_num
      rw [h10]
      rw [show (9999 : ℕ) = 9998 + 1 from by norm_num, List.replicate_succ,
        List.findIdx_cons]
      norm_num
    rw [hidx, freqGrid_getD 1 (by norm_num)]
    norm_num
  rw [hfreq, hclaimed]
  norm_num

/-- C1 witness: the amended theorem applied to the constant spectrum of
10000 ones. -/
theorem C1_pgram_peak_witness :
    (List.replicate 10000 (1 : ℚ)).length = 10000 ∧
    (((∃ i, i < 10000 ∧ 1 / 100 < freqGrid.getD i 0 ∧
          (List.replicate 10000 (1 : ℚ)).getD i 0
            = maxpgramOf (List.replicate 10000 (1 : ℚ))) ∧
        (∀ i, i < 10000 → 1 / 100 < freqGrid.getD i 0 →
          (List.replicate 10000 (1 : ℚ)).getD i 0
            ≤ maxpgramOf (List.replicate 10000 (1 : ℚ)))) ∧
      (∃ i0, i0 < 10000 ∧
        freq_at_maxgram (List.replicate 10000 (1 : ℚ)) = freqGrid.getD i0 0 ∧
        (∀ j, j < 10000 → (List.replicate 10000 (1 : ℚ)).getD j 0
          ≤ (List.replicate 10000 (1 : ℚ)).getD i0 0) ∧
        (∀ j, j < i0 → (List.replicate 10000 (1 : ℚ)).getD j 0
          < (List.replicate 10000 (1 : ℚ)).getD i0 0)) ∧
      parallax_period (List.replicate 10000 (1 : ℚ))
        = 2 * Real.pi / (freq_at_maxgram (List.replicate 10000 (1 : ℚ)) : ℝ)) :=
  ⟨by rw [List.length_replicate], C1_pgram_peak _ (by rw [List.length_replicate])⟩

/-! ## C6 : the FWHM walk -/

theorem walkAgree (pg fr : List ℚ) (half : ℚ) :
    ∀ (j i : ℕ) (lf hf : Bool) (lo hi : ℚ),
      (lf = false → half ≤ nth pg j) →
      (hf = false → half ≤ nth pg i) →
      boundaryWalk pg fr half i j (if lf = true then some lo else none)
          (if hf = true then some hi else none) =
        (if (fwhmGo pg fr half i j lf hf lo hi).1 = true
            then some (fwhmGo pg fr half i j lf hf lo hi).2.2.1 else none,
         if (fwhmGo pg fr half i j lf hf lo hi).2.1 = true
            then some (fwhmGo pg fr half i j lf hf lo hi).2.2.2 else none) := by
  intro j
  induction j with
  | zero =>
    intro i lf hf lo hi _ _
    cases lf <;> cases hf <;> simp [boundaryWalk, fwhmGo]
  | succ j ih =>
    intro i lf hf lo hi hL hH
    by_cases hb : i + 1 < pg.length
    · cases lf with
      | true =>
        cases hf with
        | true => simp [boundaryWalk, fwhmGo, hb]
        | false =>
          have hH' := hH rfl
          by_cases hdh : nth pg (i + 1) < half
          · simp [boundaryWalk, fwhmGo, hb, hH', hdh]
          · simp [boundaryWalk, fwhmGo, hb, hH', hdh]
            exact ih (i + 1) true false lo hi
              (fun h => nomatch h) (fun _ => not_lt.mp hdh)
      | false =>
        have hL' := hL rfl
        by_cases hdl : nth pg j < half
        · cases hf with
          | true => simp [boundaryWalk, fwhmGo, hb, hL', hdl]
          | false =>
            have hH' := hH rfl
            by_cases hdh : nth pg (i + 1) < half
            · simp [boundaryWalk, fwhmGo, hb, hL', hdl, hH', hdh]
            · simp [boundaryWalk, fwhmGo, hb, hL', hdl, hH', hdh]
              exact ih (i + 1) true false (nth fr j) hi
                (fun h => nomatch h) (fun _ => not_lt.mp hdh)
        · cases hf with
          | true =>
            simp [boundaryWalk, fwhmGo, hb, hL', hdl]
            exact ih (i + 1) false true lo hi
              (fun _ => not_lt.mp hdl) (fun h => nomatch h)
          | false =>
            have hH' := hH rfl
            by_cases hdh : nth pg (i + 1) < half
            · simp [boundaryWalk, fwhmGo, hb, hL', hdl, hH', hdh]
              exact ih (i + 1) false true lo (nth fr (i + 1))
                (fun _ => not_lt.mp hdl) (fun h => nomatch h)
            · simp [boundaryWalk, fwhmGo, hb, hL', hdl, hH', hdh]
              exact ih (i + 1) false false lo hi
                (fun _ => not_lt.mp hdl) (fun _ => not_lt.mp hdh)
    · cases lf <;> cases hf <;> simp [boundaryWalk, fwhmGo, hb]

theorem getD_findIdx_eq (l : List ℚ) (a : ℚ)
    (h : (l.findIdx fun x => decide (x = a)) < l.length) :
    nth l (l.findIdx fun x => decide (x = a)) = a := by
  unfold nth
  rw [List.getD_eq_getElem _ _ h]
  exact of_decide_eq_true (List.findIdx_getElem (w := h))

theorem walk_stuck (pg fr : List ℚ) (half : ℚ) (i0 : ℕ)
    (h : ¬ i0 + 1 < pg.length) :
    fwhmGo pg fr half i0 i0 false false 0 0 = (false, false, 0, 0) ∧
    boundaryWalk pg fr half i0 i0 none none = (none, none) := by
  cases i0 with
  | zero => simp [fwhmGo, boundaryWalk]
  | succ k => simp [fwhmGo, boundaryWalk, h]

/-- C6: for every power spectrum, frequency grid and peak power (normalized
powers are nonnegative, hence `0 ≤ maxp`), the source's flag-based FWHM walk
`getfwhm` computes exactly the claim's description `fwhmSpec`: walk outward
in lock-step from the grid index of the peak until the power first drops
below half the peak on each side, report the difference of the two boundary
frequencies, and report the sentinel zero when either boundary is not found
before an index bound is reached. -/
theorem C6_fwhm_walk (fr pg : List ℚ) (maxp : ℚ) (h0 : 0 ≤ maxp) :
    getfwhm fr pg maxp = fwhmSpec fr pg maxp := by
  simp only [getfwhm, fwhmSpec]
  by_cases hfound : (pg.findIdx fun x => decide (x = maxp)) + 1 < pg.length
  · have hlt : (pg.findIdx fun x => decide (x = maxp)) < pg.length := by omega
    have hval : nth pg (pg.findIdx fun x => decide (x = maxp)) = maxp :=
      getD_findIdx_eq pg maxp hlt
    have hag := walkAgree pg fr (maxp / 2)
      (pg.findIdx fun x => decide (x = maxp))
      (pg.findIdx fun x => decide (x = maxp)) false false 0 0
      (fun _ => by rw [hval]; linarith) (fun _ => by rw [hval]; linarith)
    have hag' : boundaryWalk pg fr (maxp / 2)
        (pg.findIdx fun x => decide (x = maxp))
        (pg.findIdx fun x => decide (x = maxp)) none none =
        (if (fwhmGo pg fr (maxp / 2) (pg.findIdx fun x => decide (x = maxp))
              (pg.findIdx fun x => decide (x = maxp)) false false 0 0).1 = true
            then some (fwhmGo pg fr (maxp / 2) (pg.findIdx fun x => decide (x = maxp))
              (pg.findIdx fun x => decide (x = maxp)) false false 0 0).2.2.1 else none,
         if (fwhmGo pg fr (maxp / 2) (pg.findIdx fun x => decide (x = maxp))
              (pg.findIdx fun x => decide (x = maxp)) false false 0 0).2.1 = true
            then some (fwhmGo pg fr (maxp / 2) (pg.findIdx fun x => decide (x = maxp))
              (pg.findIdx fun x => decide (x = maxp)) false false 0 0).2.2.2 else none) := hag
    rw [hag']
    rcases hfw : fwhmGo pg fr (maxp / 2) (pg.findIdx fun x => decide (x = maxp))
      (pg.findIdx fun x => decide (x = maxp)) false false 0 0 with ⟨lf, hf, lo2, hi2⟩
    cases lf <;> cases hf <;> simp
  · obtain ⟨h1, h2⟩ := walk_stuck pg fr (maxp / 2)
      (pg.findIdx fun x => decide (x = maxp)) hfound
    rw [h1, h2]
    simp

/-- C6 witness: the equivalence applied to a concrete three-point spectrum
with peak power 5. -/
theorem C6_fwhm_walk_witness :
    (0 : ℚ) ≤ 5 ∧
    getfwhm [1, 2, 3] [1, 5, 1] 5 = fwhmSpec [1, 2, 3] [1, 5, 1] 5 :=
  ⟨by norm_num, C6_fwhm_walk _ _ _ (by norm_num)⟩

/-! ## C3 / C4 : reduced chi-square failure behavior -/

theorem foldl_chi_error (dps : List (ℚ × ℚ × ℚ)) (f : ℚ → ℚ) (e : PyErr) :
    dps.foldl (chiSquareStep f) (.error e) = .error e := by
  induction dps with
  | nil => rfl
  | cons a t ih =>
    rw [List.foldl_cons, show chiSquareStep f (.error e) a = .error e from rfl, ih]

theorem exceptBind_ok (s : ℚ) (g : ℚ → Except PyErr ℚ) :
    (Except.ok s : Except PyErr ℚ) >>= g = g s := rfl

theorem chiStep_ok (f : ℚ → ℚ) (s : ℚ) (a : ℚ × ℚ × ℚ) :
    chiSquareStep f (.ok s) a =
      if a.2.2 ^ 2 = 0 then .error .zeroDivision
      else .ok (s + (a.2.1 - f a.1) ^ 2 / a.2.2 ^ 2) := rfl

theorem chiSum_zero_sigma (f : ℚ → ℚ) :
    ∀ (dps : List (ℚ × ℚ × ℚ)) (s : ℚ), (∃ dp ∈ dps, dp.2.2 = 0) →
      dps.foldl (chiSquareStep f) (.ok s) = .error .zeroDivision := by
  intro dps
  induction dps with
  | nil =>
    intro s h
    simp at h
  | cons a t ih =>
    intro s h
    rw [List.foldl_cons]
    by_cases ha : a.2.2 ^ 2 = 0
    · rw [chiStep_ok, if_pos ha, foldl_chi_error]
    · rw [chiStep_ok, if_neg ha]
      apply ih
      rcases h with ⟨dp, hdp, hz⟩
      rcases List.mem_cons.mp hdp with rfl | hmem
      · exact absurd (by rw [hz]; ring) ha
      · exact ⟨dp, hmem, hz⟩

theorem chiSum_ok (f : ℚ → ℚ) :
    ∀ (dps : List (ℚ × ℚ × ℚ)) (s : ℚ), (∀ dp ∈ dps, dp.2.2 ≠ 0) → 0 ≤ s →
      ∃ S, dps.foldl (chiSquareStep f) (.ok s) = .ok S ∧ 0 ≤ S := by
  intro dps
  induction dps with
  | nil =>
    intro s _ hs
    exact ⟨s, rfl, hs⟩
  | cons a t ih =>
    intro s hall hs
    rw [List.foldl_cons]
    have ha : a.2.2 ^ 2 ≠ 0 := pow_ne_zero _ (hall a (by simp))
    rw [chiStep_ok, if_neg ha]
    apply ih _ (fun dp hdp => hall dp (List.mem_cons_of_mem _ hdp))
    have hadd : 0 ≤ (a.2.1 - f a.1) ^ 2 / a.2.2 ^ 2 :=
      div_nonneg (sq_nonneg _) (sq_nonneg _)
    linarith

theorem chiSum_cases (f : ℚ → ℚ) :
    ∀ (dps : List (ℚ × ℚ × ℚ)) (s : ℚ),
      (∃ S, dps.foldl (chiSquareStep f) (.ok s) = .ok S) ∨
      dps.foldl (chiSquareStep f) (.ok s) = .error .zeroDivision := by
  intro dps
  induction dps with
  | nil =>
    intro s
    exact Or.inl ⟨s, rfl⟩
  | cons a t ih =>
    intro s
    rw [List.foldl_cons]
    by_cases ha : a.2.2 ^ 2 = 0
    · right
      rw [chiStep_ok, if_pos ha, foldl_chi_error]
    · rw [chiStep_ok, if_neg ha]
      exact ih _

theorem roundHalfEven_nonpos (x : ℚ) (hx : x ≤ 0) : roundHalfEven x ≤ 0 := by
  have hfl : ⌊x⌋ ≤ 0 := by
    have h0 := Int.floor_le_floor hx
    simpa using h0
  have hle : (⌊x⌋ : ℚ) ≤ x := Int.floor_le x
  unfold roundHalfEven
  split_ifs with h1 h2 h3
  · exact hfl
  · have hneg : ((⌊x⌋ : ℤ) : ℚ) < 0 := by linarith
    have h4 : ⌊x⌋ < 0 := by exact_mod_cast hneg
    omega
  · exact hfl
  · have h1' : (1 : ℚ) / 2 ≤ x - ⌊x⌋ := not_lt.mp h1
    have hneg : ((⌊x⌋ : ℤ) : ℚ) < 0 := by linarith
    have h4 : ⌊x⌋ < 0 := by exact_mod_cast hneg
    omega

theorem pyRound_nonpos (x : ℚ) (hx : x ≤ 0) (d : ℕ) : pyRound x d ≤ 0 := by
  unfold pyRound
  have h1 : x * 10 ^ d ≤ 0 :=
    mul_nonpos_iff.mpr (Or.inr ⟨hx, by positivity⟩)
  have h2 : ((roundHalfEven (x * 10 ^ d) : ℤ) : ℚ) ≤ 0 := by
    exact_mod_cast roundHalfEven_nonpos _ h1
  have h3 : (0 : ℚ) < 10 ^ d := by positivity
  exact div_nonpos_of_nonpos_of_nonneg h2 h3.le

/-- C4: `reduced_chi_square` fails (with the unchecked division's
`ZeroDivisionError`) whenever any observation triple has an uncertainty of
exactly zero, rather than contributing a silently infinite term. -/
theorem C4_zero_uncertainty (dps : List (ℚ × ℚ × ℚ)) (f : ℚ → ℚ) (Nu : ℤ)
    (h : ∃ dp ∈ dps, dp.2.2 = 0) :
    reduced_chi_square dps f Nu = .error .zeroDivision := by
  unfold reduced_chi_square
  rw [chiSum_zero_sigma f dps 0 h]
  rfl

/-- C4 witness: a single observation with zero uncertainty. -/
theorem C4_zero_uncertainty_witness :
    (∃ dp ∈ [((0 : ℚ), (1 : ℚ), (0 : ℚ))], dp.2.2 = 0) ∧
    reduced_chi_square [((0 : ℚ), (1 : ℚ), (0 : ℚ))] (fun t => t) 3 =
      .error .zeroDivision :=
  ⟨⟨((0 : ℚ), (1 : ℚ), (0 : ℚ)), by simp, rfl⟩,
   C4_zero_uncertainty _ _ _ ⟨((0 : ℚ), (1 : ℚ), (0 : ℚ)), by simp, rfl⟩⟩

/-- C3 (amended): `reduced_chi_square` fails (with a `ZeroDivisionError`)
exactly when `count(observations) = degrees_of_freedom`; when
`count < degrees_of_freedom` (and no uncertainty is zero) it does not fail:
it silently returns a nonpositive rounded value. -/
theorem C3_degenerate_divisor (dps : List (ℚ × ℚ × ℚ)) (f : ℚ → ℚ) (Nu : ℤ) :
    ((dps.length : ℤ) = Nu → reduced_chi_square dps f Nu = .error .zeroDivision) ∧
    ((dps.length : ℤ) < Nu → (∀ dp ∈ dps, dp.2.2 ≠ 0) →
      ∃ q, q ≤ 0 ∧ reduced_chi_square dps f Nu = .ok q) := by
  constructor
  · intro hlen
    unfold reduced_chi_square
    rcases chiSum_cases f dps 0 with ⟨S, hS⟩ | hS
    · have hz : (((dps.length : ℤ) - Nu : ℤ) : ℚ) = 0 := by
        rw [hlen]
        simp
      rw [hS, exceptBind_ok, if_pos hz]
    · rw [hS]
      rfl
  · intro hlen hall
    obtain ⟨S, hS, hS0⟩ := chiSum_ok f dps 0 hall le_rfl
    have hd : (((dps.length : ℤ) - Nu : ℤ) : ℚ) < 0 := by
      have h5 : (dps.length : ℤ) - Nu < 0 := by omega
      exact_mod_cast h5
    refine ⟨pyRound (S / (((dps.length : ℤ) - Nu : ℤ) : ℚ)) 3, ?_, ?_⟩
    · exact pyRound_nonpos _ (div_nonpos_of_nonneg_of_nonpos hS0 hd.le) 3
    · unfold reduced_chi_square
      rw [hS, exceptBind_ok, if_neg (ne_of_lt hd)]

/-- C3 witness: the amended theorem at one observation with `Nu = 1`
(failure) and `Nu = 3` (silent nonpositive result). -/
theorem C3_degenerate_divisor_witness :
    reduced_chi_square [((0 : ℚ), (1 : ℚ), (1 : ℚ))] (fun _ => 0) 1
      = .error .zeroDivision ∧
    ∃ q, q ≤ 0 ∧
      reduced_chi_square [((0 : ℚ), (1 : ℚ), (1 : ℚ))] (fun _ => 0) 3 = .ok q :=
  ⟨(C3_degenerate_divisor _ _ 1).1 (by norm_num),
   (C3_degenerate_divisor _ _ 3).2 (by norm_num)
     (by intro dp hdp; rcases List.mem_singleton.mp hdp with rfl; norm_num)⟩

/-- C3 counterexample: two observations with `Nu = 5` (`count < Nu`): the
function does not fail; it returns the negative value `-1.667`. -/
theorem C3_counterexample :
    (([((0 : ℚ), (1 : ℚ), (1 : ℚ)), ((0 : ℚ), (2 : ℚ), (1 : ℚ))] :
        List (ℚ × ℚ × ℚ)).length : ℤ) ≤ 5 ∧
    reduced_chi_square [((0 : ℚ), (1 : ℚ), (1 : ℚ)), ((0 : ℚ), (2 : ℚ), (1 : ℚ))]
      (fun _ => 0) 5 = .ok (-(1667 / 1000)) := by
  constructor
  · norm_num
  · unfold reduced_chi_square
    rw [List.foldl_cons, chiStep_ok, if_neg (by norm_num),
      List.foldl_cons, chiStep_ok, if_neg (by norm_num),
      List.foldl_nil, exceptBind_ok]
    norm_num [pyRound, roundHalfEven]

/-! ## C5 / C9 : the Lightcurve model -/

/-- C9: construction clamps the blending fraction silently: values above 1
become 1, values below 0 become 0, in-range values are stored unchanged,
and the stored field is exactly the clamped value. -/
theorem C9_fbl_clamp (Ibl umin tE t0 fbl : ℝ) :
    (Lightcurve.make Ibl umin tE t0 fbl).fbl = validate_fbl fbl ∧
    (1 < fbl → validate_fbl fbl = 1) ∧
    (fbl < 0 → validate_fbl fbl = 0) ∧
    (0 ≤ fbl → fbl ≤ 1 → validate_fbl fbl = fbl) := by
  refine ⟨rfl, ?_, ?_, ?_⟩
  · intro h
    simp [validate_fbl, h]
  · intro h
    have h1 : ¬ (1 : ℝ) < fbl := by linarith
    simp [validate_fbl, h1, h]
  · intro h0 h1
    have h2 : ¬ (1 : ℝ) < fbl := not_lt.mpr h1
    have h3 : ¬ fbl < 0 := not_lt.mpr h0
    simp [validate_fbl, h2, h3]

/-- C9 witness: the clamp at 1.5, -0.2 and 0.5. -/
theorem C9_fbl_clamp_witness :
    validate_fbl (3 / 2) = 1 ∧ validate_fbl (-(1 / 5)) = 0 ∧
    validate_fbl (1 / 2) = 1 / 2 :=
  ⟨(C9_fbl_clamp 0 0 1 0 (3 / 2)).2.1 (by norm_num),
   (C9_fbl_clamp 0 0 1 0 (-(1 / 5))).2.2.1 (by norm_num),
   (C9_fbl_clamp 0 0 1 0 (1 / 2)).2.2.2 (by norm_num) (by norm_num)⟩

/-- C5 counterexample: the claimed preconditions admit `umin = 0` (the spec
only asks for a non-negative impact parameter), but at `umin = 0` and
`t = t0` the amplification divides by `u * sqrt(u² + 4) = 0`, so `mag` is
not defined at every real `t`: with `Ibl = 0`, `umin = 0`, `tE = 1`,
`t0 = 0`, `fbl = 1` the evaluation at `t = 0` fails. -/
theorem C5_counterexample :
    (0 : ℝ) ≤ 0 ∧ (0 : ℝ) < 1 ∧
    (Lightcurve.make 0 0 1 0 1).fbl = 1 ∧
    Lightcurve.mag (Lightcurve.make 0 0 1 0 1) 0 = none := by
  refine ⟨le_refl _, by norm_num, ?_, ?_⟩
  · show validate_fbl 1 = 1
    norm_num [validate_fbl]
  · show Lightcurve.mag ⟨0, 0, 1, 0, validate_fbl 1⟩ 0 = none
    unfold Lightcurve.mag
    rw [if_neg (by norm_num : ¬ (1 : ℝ) = 0)]
    have hu : Real.sqrt ((0 : ℝ) ^ 2 + ((0 - 0) / 1) ^ 2) = 0 := by
      norm_num
    simp only [hu]
    rw [if_pos (by ring : (0 : ℝ) * Real.sqrt (0 ^ 2 + 4) = 0)]

/-- C5 (amended): with a nonzero timescale and a clamped blending fraction,
`mag` is defined (and yields a finite real) at every real `t` as soon as
`umin ≠ 0` or `t ≠ t0`; in the excluded corner (`umin = 0` and `t = t0`)
the evaluation fails with a division by zero. -/
theorem C5_mag_defined (lc : Lightcurve) (htE : lc.tE ≠ 0)
    (hf0 : 0 ≤ lc.fbl) (hf1 : lc.fbl ≤ 1) :
    (∀ t, (lc.umin ≠ 0 ∨ t ≠ lc.t0) → (lc.mag t).isSome) ∧
    (lc.umin = 0 → lc.mag lc.t0 = none) := by
  constructor
  · intro t ht
    have hs : 0 < lc.umin ^ 2 + ((t - lc.t0) / lc.tE) ^ 2 := by
      rcases ht with h | h
      · have : 0 < lc.umin ^ 2 := by positivity
        have h2 : 0 ≤ ((t - lc.t0) / lc.tE) ^ 2 := sq_nonneg _
        linarith
      · have hne : (t - lc.t0) / lc.tE ≠ 0 :=
          div_ne_zero (sub_ne_zero.mpr h) htE
        have : 0 < ((t - lc.t0) / lc.tE) ^ 2 := by positivity
        have h2 : 0 ≤ lc.umin ^ 2 := sq_nonneg _
        linarith
    have hu : 0 < Real.sqrt (lc.umin ^ 2 + ((t - lc.t0) / lc.tE) ^ 2) :=
      Real.sqrt_pos.mpr hs
    set u : ℝ := Real.sqrt (lc.umin ^ 2 + ((t - lc.t0) / lc.tE) ^ 2) with hudef
    have hs4 : 0 < Real.sqrt (u ^ 2 + 4) := by
      apply Real.sqrt_pos.mpr
      positivity
    have hden : 0 < u * Real.sqrt (u ^ 2 + 4) := mul_pos hu hs4
    have hfr : 0 < (u ^ 2 + 2) / (u * Real.sqrt (u ^ 2 + 4)) :=
      div_pos (by positivity) hden
    set fr : ℝ := (u ^ 2 + 2) / (u * Real.sqrt (u ^ 2 + 4)) with hfrdef
    have hfrb : 0 < (fr - 1) * lc.fbl + 1 := by
      rcases le_or_lt 1 fr with h | h
      · nlinarith
      · nlinarith
    unfold Lightcurve.mag
    rw [if_neg htE, if_neg (ne_of_gt hden), if_neg (not_le.mpr hfrb)]
    rfl
  · intro h0
    unfold Lightcurve.mag
    rw [if_neg htE]
    have hu : Real.sqrt (lc.umin ^ 2 + ((lc.t0 - lc.t0) / lc.tE) ^ 2) = 0 := by
      rw [h0]
      norm_num
    simp only [hu]
    rw [if_pos (by ring : (0 : ℝ) * Real.sqrt (0 ^ 2 + 4) = 0)]

/-- C5 witness: the amended theorem at `umin = 1, tE = 1`: definedness at
`t = 5`, and the failure half at a `umin = 0` curve. -/
theorem C5_mag_defined_witness :
    ((1 : ℝ) ≠ 0 ∧ (0 : ℝ) ≤ 1 ∧ (1 : ℝ) ≤ 1 ∧
      (Lightcurve.mag ⟨0, 1, 1, 0, 1⟩ 5).isSome) ∧
    Lightcurve.mag ⟨0, 0, 1, 0, 1⟩ 0 = none :=
  ⟨⟨one_ne_zero, zero_le_one, le_refl 1,
    (C5_mag_defined ⟨0, 1, 1, 0, 1⟩ one_ne_zero zero_le_one (le_refl 1)).1 5
      (Or.inl one_ne_zero)⟩,
   (C5_mag_defined ⟨0, 0, 1, 0, 1⟩ one_ne_zero zero_le_one (le_refl 1)).2 rfl⟩

/-! ## C7 : year-to-generation mapping and zero padding -/

/-- C7: each of the three disjoint inclusive year ranges maps to its
generation (1998-2000 to OGLE-II, 2002-2009 to OGLE-III, 2011-2019 to
OGLE-IV) and `padded_n` pads the event number with the generation's fixed
width (2, 3, 4 respectively); every year strictly outside all three ranges
makes both `get_ogle_version` and `padded_n` fail with the
unsupported-year configuration error. -/
theorem C7_year_generation (year : ℤ) (n : ℕ) :
    (1998 ≤ year ∧ year ≤ 2000 →
      get_ogle_version year = .ok 2 ∧
      padded_n n year = .ok (zfill (toString n) 2)) ∧
    (2002 ≤ year ∧ year ≤ 2009 →
      get_ogle_version year = .ok 3 ∧
      padded_n n year = .ok (zfill (toString n) 3)) ∧
    (2011 ≤ year ∧ year ≤ 2019 →
      get_ogle_version year = .ok 4 ∧
      padded_n n year = .ok (zfill (toString n) 4)) ∧
    (¬(1998 ≤ year ∧ year ≤ 2000) → ¬(2002 ≤ year ∧ year ≤ 2009) →
      ¬(2011 ≤ year ∧ year ≤ 2019) →
      get_ogle_version year = .error (.exception "Unsupported year.") ∧
      padded_n n year = .error (.exception "Unsupported year.")) := by
  refine ⟨?_, ?_, ?_, ?_⟩
  · intro h
    have hv : get_ogle_version year = .ok 2 := by
      unfold get_ogle_version
      rw [if_pos h]
    refine ⟨hv, ?_⟩
    unfold padded_n
    rw [hv]
    rfl
  · intro h
    have h1 : ¬(1998 ≤ year ∧ year ≤ 2000) := by omega
    have hv : get_ogle_version year = .ok 3 := by
      unfold get_ogle_version
      rw [if_neg h1, if_pos h]
    refine ⟨hv, ?_⟩
    unfold padded_n
    rw [hv]
    rfl
  · intro h
    have h1 : ¬(1998 ≤ year ∧ year ≤ 2000) := by omega
    have h2 : ¬(2002 ≤ year ∧ year ≤ 2009) := by omega
    have hv : get_ogle_version year = .ok 4 := by
      unfold get_ogle_version
      rw [if_neg h1, if_neg h2, if_pos h]
    refine ⟨hv, ?_⟩
    unfold padded_n
    rw [hv]
    rfl
  · intro h1 h2 h3
    have hv : get_ogle_version year = .error (.exception "Unsupported year.") := by
      unfold get_ogle_version
      rw [if_neg h1, if_neg h2, if_neg h3]
    refine ⟨hv, ?_⟩
    unfold padded_n
    rw [hv]
    rfl

/-- C7 witness: one year inside each range (1999, 2005, 2015) with event
number 7, and the out-of-range years 2001 and 2010. -/
theorem C7_year_generation_witness :
    (get_ogle_version 1999 = .ok 2 ∧
      padded_n 7 1999 = .ok (zfill (toString 7) 2)) ∧
    (get_ogle_version 2005 = .ok 3 ∧
      padded_n 7 2005 = .ok (zfill (toString 7) 3)) ∧
    (get_ogle_version 2015 = .ok 4 ∧
      padded_n 7 2015 = .ok (zfill (toString 7) 4)) ∧
    (get_ogle_version 2001 = .error (.exception "Unsupported year.") ∧
      padded_n 7 2001 = .error (.exception "Unsupported year.")) ∧
    (get_ogle_version 2010 = .error (.exception "Unsupported year.") ∧
      padded_n 7 2010 = .error (.exception "Unsupported year.")) :=
  ⟨(C7_year_generation 1999 7).1 (by norm_num),
   (C7_year_generation 2005 7).2.1 (by norm_num),
   (C7_year_generation 2015 7).2.2.1 (by norm_num),
   (C7_year_generation 2001 7).2.2.2 (by norm_num) (by norm_num) (by norm_num),
   (C7_year_generation 2010 7).2.2.2 (by norm_num) (by norm_num) (by norm_num)⟩

/-! ## C2 : transient-failure retry in RemoteDatFile.get_contents -/

theorem retry_result_discarded (fp : String) (rest : List FtpAttempt)
    (c : String) (h : get_contents fp rest = .ok c) :
    get_contents fp (.tempErr :: rest) = .error .unboundLocal := by
  show (match get_contents fp rest with
    | .ok _ => (.error .unboundLocal : Except PyErr String)
    | .error e => .error e) = .error .unboundLocal
  rw [h]

/-- C2: evaluation of `get_contents` at the failing input.  With a script
whose first attempt raises a transient error and whose retry succeeds with
content `"data"`, the code does reconnect and retry (the retry, run as its
own request, succeeds - second conjunct), but the retried content is
discarded and the original call falls through to `return filecontents`
with `filecontents` unbound, so the caller receives an `UnboundLocalError`
instead of the content (first conjunct; `retry_result_discarded` above is
the general statement). -/
theorem C2_retry_discards_content :
    get_contents "/ogle/x" [.tempErr, .ok ["data"]] = .error .unboundLocal ∧
    get_contents "/ogle/x" [.ok ["data"]] = .ok "data" := by
  refine ⟨?_, rfl⟩
  show (match get_contents "/ogle/x" [.ok ["data"]] with
    | .ok _ => (.error .unboundLocal : Except PyErr String)
    | .error e => .error e) = .error .unboundLocal
  rw [show get_contents "/ogle/x" [.ok ["data"]] = .ok "data" from rfl]

/-! ## C8 / C10 : FileGrabber save and ftp gating -/

theorem exceptBind_okG {α β : Type} (a : α) (g : α → Except PyErr β) :
    (Except.ok a : Except PyErr α) >>= g = g a := rfl

theorem lookup_cons_ne (k v q : String) (l : List (String × String)) (h : q ≠ k) :
    ((k, v) :: l).lookup q = l.lookup q := by
  simp [List.lookup, beq_eq_false_iff_ne.mpr h]

theorem lookup_cons_self (k v : String) (l : List (String × String)) :
    ((k, v) :: l).lookup k = some v := by
  simp [List.lookup]

theorem force_write_exists (fs : FS) (p s c : String) (h : fs.read p = some c) :
    force_write fs p s = (fs, 0) := by
  unfold force_write
  have hb : fs.isfile p = true := by
    unfold FS.isfile
    rw [h]
    rfl
  rw [if_pos hb]

theorem force_write_new (fs : FS) (p s : String) (h : fs.read p = none) :
    force_write fs p s =
      ((if fs.isdir (dirname p) then fs
        else fs.makedirs (dirname p)).write p s, 1) := by
  unfold force_write
  have hb : ¬ fs.isfile p = true := by
    unfold FS.isfile
    rw [h]
    simp
  rw [if_neg hb]

theorem force_write_files (fs : FS) (p s : String) (h : fs.read p = none) :
    (force_write fs p s).1.files = (p, s) :: fs.files := by
  rw [force_write_new fs p s h]
  split_ifs <;> rfl

theorem force_write_outcome (fs : FS) (p s : String) (h : fs.read p = none) :
    (force_write fs p s).2 = 1 := by
  rw [force_write_new fs p s h]

theorem force_write_dirs_mem (fs : FS) (p s : String) (h : fs.read p = none) :
    dirname p ∈ (force_write fs p s).1.dirs := by
  rw [force_write_new fs p s h]
  by_cases hd : fs.isdir (dirname p)
  · rw [if_pos hd]
    show dirname p ∈ fs.dirs
    simpa [FS.isdir] using hd
  · rw [if_neg hd]
    exact List.mem_cons_self _ _

theorem force_write_dirs_mono (fs : FS) (p s x : String) (h : x ∈ fs.dirs) :
    x ∈ (force_write fs p s).1.dirs := by
  simp only [force_write]
  split_ifs with h1 h2
  · exact h
  · exact h
  · exact List.mem_cons_of_mem _ h

theorem get_datfile_hit (d : String) (fc : Option (String → List FtpAttempt))
    (fs : FS) (year : ℤ) (n : ℕ) (field dt rp lp c : String)
    (hrp : remote_filepath year n field dt = .ok rp)
    (hlp : local_filepath d year n field dt = .ok lp)
    (hread : fs.read lp = some c) :
    get_datfile ⟨some d, fc⟩ fs year n field dt = .ok (pyStrip c, []) := by
  simp only [get_datfile, hrp, exceptBind_okG, hlp, hread]

theorem get_datfile_miss (d : String) (net : String → List FtpAttempt)
    (fs : FS) (year : ℤ) (n : ℕ) (field dt rp lp c : String)
    (hrp : remote_filepath year n field dt = .ok rp)
    (hlp : local_filepath d year n field dt = .ok lp)
    (hread : fs.read lp = none)
    (hc : get_contents rp (net rp) = .ok c) :
    get_datfile ⟨some d, some net⟩ fs year n field dt = .ok (pyStrip c, [rp]) := by
  simp only [get_datfile, hrp, exceptBind_okG, hlp, hread, fetchRemote, hc]
  rfl

theorem get_datfile_nodir_noftp (fs : FS) (year : ℤ) (n : ℕ)
    (field dt rp : String)
    (hrp : remote_filepath year n field dt = .ok rp) :
    get_datfile ⟨none, none⟩ fs year n field dt = .error .attributeError := by
  simp only [get_datfile, hrp, exceptBind_okG, fetchRemote]
  rfl

theorem get_datfile_miss_noftp (d : String) (fs : FS) (year : ℤ) (n : ℕ)
    (field dt rp lp : String)
    (hrp : remote_filepath year n field dt = .ok rp)
    (hlp : local_filepath d year n field dt = .ok lp)
    (hread : fs.read lp = none) :
    get_datfile ⟨some d, none⟩ fs year n field dt = .error .attributeError := by
  simp only [get_datfile, hrp, exceptBind_okG, hlp, hread, fetchRemote]
  rfl

theorem local_filepath_phot_ne_params (d : String) (year : ℤ) (n : ℕ)
    (field : String) {lpP lpQ : String}
    (h1 : local_filepath d year n field "phot" = .ok lpP)
    (h2 : local_filepath d year n field "params" = .ok lpQ) : lpP ≠ lpQ := by
  unfold local_filepath at h1 h2
  cases hpn : padded_n n year with
  | error e =>
    rw [hpn] at h1
    have h1' : (Except.error e : Except PyErr String) = .ok lpP := h1
    cases h1'
  | ok pn =>
    rw [hpn, exceptBind_okG] at h1 h2
    have e1 := Except.ok.inj h1
    have e2 := Except.ok.inj h2
    rw [← e1, ← e2]
    intro hcontra
    apply_fun String.length at hcontra
    simp only [String.length_append] at hcontra
    rw [show ("phot".length) = 4 from rfl, show ("params".length) = 6 from rfl]
      at hcontra
    omega

/-- C8: the bulk save is idempotent.  Starting from a cache with neither
document present, with a data directory configured, `ftp_enabled` network
access, and both remote fetches succeeding: the first `save` fetches and
writes both documents (creating the event directory) and reports `saved`
for each; running `save` again returns the same filesystem unchanged
(identical file contents, because existing files are neither re-fetched -
the netlog stays empty - nor overwritten) and reports `exists` for each
document. -/
theorem C8_save_idempotent
    (g : FileGrabber) (fs0 : FS) (year : ℤ) (n : ℕ) (field : String)
    (d : String) (net : String → List FtpAttempt)
    (lpP lpQ rpP rpQ c1 c2 : String)
    (hd : g.datadir = some d) (hnet : g.ftpclient = some net)
    (hlpP : local_filepath d year n field "phot" = .ok lpP)
    (hlpQ : local_filepath d year n field "params" = .ok lpQ)
    (hrpP : remote_filepath year n field "phot" = .ok rpP)
    (hrpQ : remote_filepath year n field "params" = .ok rpQ)
    (hfsP : fs0.read lpP = none) (hfsQ : fs0.read lpQ = none)
    (hc1 : get_contents rpP (net rpP) = .ok c1)
    (hc2 : get_contents rpQ (net rpQ) = .ok c2) :
    ∃ fs1,
      save g fs0 year n field = .ok (fs1, ["saved", "saved"], [rpP, rpQ]) ∧
      save g fs1 year n field = .ok (fs1, ["exists", "exists"], []) ∧
      fs1.read lpP = some (pyStrip c1) ∧ fs1.read lpQ = some (pyStrip c2) ∧
      dirname lpP ∈ fs1.dirs ∧ dirname lpQ ∈ fs1.dirs := by
  obtain ⟨dd, fc⟩ := g
  have hd' : dd = some d := hd
  have hnet' : fc = some net := hnet
  subst hd'
  subst hnet'
  have hne : lpP ≠ lpQ := local_filepath_phot_ne_params d year n field hlpP hlpQ
  have e1 : get_datfile ⟨some d, some net⟩ fs0 year n field "phot"
      = .ok (pyStrip c1, [rpP]) :=
    get_datfile_miss d net fs0 year n field "phot" rpP lpP c1 hrpP hlpP hfsP hc1
  have hAfiles : (force_write fs0 lpP (pyStrip c1)).1.files
      = (lpP, pyStrip c1) :: fs0.files := force_write_files _ _ _ hfsP
  have hAreadP : (force_write fs0 lpP (pyStrip c1)).1.read lpP
      = some (pyStrip c1) := by
    show (force_write fs0 lpP (pyStrip c1)).1.files.lookup lpP = some (pyStrip c1)
    rw [hAfiles, lookup_cons_self]
  have hAreadQ : (force_write fs0 lpP (pyStrip c1)).1.read lpQ = none := by
    show (force_write fs0 lpP (pyStrip c1)).1.files.lookup lpQ = none
    rw [hAfiles, lookup_cons_ne _ _ _ _ (Ne.symm hne)]
    exact hfsQ
  have e2 : get_datfile ⟨some d, some net⟩ (force_write fs0 lpP (pyStrip c1)).1
      year n field "params" = .ok (pyStrip c2, [rpQ]) :=
    get_datfile_miss d net _ year n field "params" rpQ lpQ c2 hrpQ hlpQ hAreadQ hc2
  have hBfiles : (force_write (force_write fs0 lpP (pyStrip c1)).1 lpQ
      (pyStrip c2)).1.files
      = (lpQ, pyStrip c2) :: (force_write fs0 lpP (pyStrip c1)).1.files :=
    force_write_files _ _ _ hAreadQ
  have hBreadP : (force_write (force_write fs0 lpP (pyStrip c1)).1 lpQ
      (pyStrip c2)).1.read lpP = some (pyStrip c1) := by
    show (force_write (force_write fs0 lpP (pyStrip c1)).1 lpQ
      (pyStrip c2)).1.files.lookup lpP = some (pyStrip c1)
    rw [hBfiles, lookup_cons_ne _ _ _ _ hne]
    exact hAreadP
  have hBreadQ : (force_write (force_write fs0 lpP (pyStrip c1)).1 lpQ
      (pyStrip c2)).1.read lpQ = some (pyStrip c2) := by
    show (force_write (force_write fs0 lpP (pyStrip c1)).1 lpQ
      (pyStrip c2)).1.files.lookup lpQ = some (pyStrip c2)
    rw [hBfiles, lookup_cons_self]
  refine ⟨(force_write (force_write fs0 lpP (pyStrip c1)).1 lpQ (pyStrip c2)).1,
    ?_, ?_, hBreadP, hBreadQ, ?_, ?_⟩
  · simp only [save, e1, exceptBind_okG, hlpP, e2, hlpQ,
      force_write_outcome fs0 lpP (pyStrip c1) hfsP,
      force_write_outcome _ lpQ (pyStrip c2) hAreadQ, outcomeMsg]
    norm_num
  · have e3 : get_datfile ⟨some d, some net⟩
        (force_write (force_write fs0 lpP (pyStrip c1)).1 lpQ (pyStrip c2)).1
        year n field "phot" = .ok (pyStrip (pyStrip c1), []) :=
      get_datfile_hit d (some net) _ year n field "phot" rpP lpP _ hrpP hlpP hBreadP
    have f1 : force_write
        (force_write (force_write fs0 lpP (pyStrip c1)).1 lpQ (pyStrip c2)).1
        lpP (pyStrip (pyStrip c1)) =
        ((force_write (force_write fs0 lpP (pyStrip c1)).1 lpQ (pyStrip c2)).1, 0) :=
      force_write_exists _ _ _ _ hBreadP
    have e4 : get_datfile ⟨some d, some net⟩
        (force_write (force_write fs0 lpP (pyStrip c1)).1 lpQ (pyStrip c2)).1
        year n field "params" = .ok (pyStrip (pyStrip c2), []) :=
      get_datfile_hit d (some net) _ year n field "params" rpQ lpQ _ hrpQ hlpQ hBreadQ
    have f2 : force_write
        (force_write (force_write fs0 lpP (pyStrip c1)).1 lpQ (pyStrip c2)).1
        lpQ (pyStrip (pyStrip c2)) =
        ((force_write (force_write fs0 lpP (pyStrip c1)).1 lpQ (pyStrip c2)).1, 0) :=
      force_write_exists _ _ _ _ hBreadQ
    simp only [save, e3, exceptBind_okG, hlpP, f1, e4, hlpQ, f2, outcomeMsg]
    norm_num
  · exact force_write_dirs_mono _ lpQ (pyStrip c2) _
      (force_write_dirs_mem fs0 lpP (pyStrip c1) hfsP)
  · exact force_write_dirs_mem _ lpQ (pyStrip c2) hAreadQ

/-- C8 witness: both runs over an initially empty filesystem for event
2015 BLG-0001 with a network that always returns `content`. -/
theorem C8_save_idempotent_witness :
    ∃ fs1,
      save ⟨some "dat", some fun _ => [FtpAttempt.ok ["content"]]⟩ ⟨[], []⟩
          2015 1 "BLG"
        = .ok (fs1, ["saved", "saved"],
            ["/ogle/ogle4/ews/2015/BLG-0001/phot.dat",
             "/ogle/ogle4/ews/2015/BLG-0001/params.dat"]) ∧
      save ⟨some "dat", some fun _ => [FtpAttempt.ok ["content"]]⟩ fs1
          2015 1 "BLG"
        = .ok (fs1, ["exists", "exists"], []) ∧
      fs1.read "dat/2015/blg-0001/phot.dat" = some (pyStrip "content") ∧
      fs1.read "dat/2015/blg-0001/params.dat" = some (pyStrip "content") ∧
      dirname "dat/2015/blg-0001/phot.dat" ∈ fs1.dirs ∧
      dirname "dat/2015/blg-0001/params.dat" ∈ fs1.dirs :=
  C8_save_idempotent
    ⟨some "dat", some fun _ => [FtpAttempt.ok ["content"]]⟩ ⟨[], []⟩
    2015 1 "BLG" "dat" (fun _ => [FtpAttempt.ok ["content"]])
    "dat/2015/blg-0001/phot.dat" "dat/2015/blg-0001/params.dat"
    "/ogle/ogle4/ews/2015/BLG-0001/phot.dat"
    "/ogle/ogle4/ews/2015/BLG-0001/params.dat"
    "content" "content"
    rfl rfl (by decide) (by decide) (by decide) (by decide)
    rfl rfl (by decide) (by decide)

/-- C10: the grabber Event builds by default (`FileGrabber(defaultpath)`,
i.e. `ftp_enabled=False`) has no `ftpclient` attribute, so for every valid
request whose document is absent from the local cache - or issued with no
data directory configured at all - `get_datfile` fails with the
`AttributeError` instead of performing the remote retrieval; a cache hit
still succeeds without touching the network, and the `ftpclient` attribute
(hence remote fetching) exists exactly when `ftp_enabled=True` was passed
at construction. -/
theorem C10_ftp_disabled
    (fs : FS) (env : Option String) (net : String → List FtpAttempt)
    (year : ℤ) (n : ℕ) (field dt rp : String)
    (hrp : remote_filepath year n field dt = .ok rp) :
    (∀ g, event_default_grabber fs env net = .ok g →
      g.ftpclient = none ∧
      (g.datadir = none →
        get_datfile g fs year n field dt = .error .attributeError) ∧
      (∀ d lp, g.datadir = some d → local_filepath d year n field dt = .ok lp →
        fs.read lp = none →
        get_datfile g fs year n field dt = .error .attributeError) ∧
      (∀ d lp c, g.datadir = some d → local_filepath d year n field dt = .ok lp →
        fs.read lp = some c →
        get_datfile g fs year n field dt = .ok (pyStrip c, []))) ∧
    (∀ dd g', FileGrabber.init fs env net dd true = .ok g' →
      g'.ftpclient = some net) := by
  constructor
  · intro g hg
    unfold event_default_grabber FileGrabber.init at hg
    cases hv : verify_datadir fs env env with
    | error e =>
      rw [hv] at hg
      cases hg
    | ok dd0 =>
      rw [hv] at hg
      have hg' : (⟨dd0, none⟩ : FileGrabber) = g := by
        have : Except.ok (⟨dd0, if false = true then some net else none⟩ :
            FileGrabber) = .ok g := hg
        simpa using Except.ok.inj this
      subst hg'
      refine ⟨rfl, ?_, ?_, ?_⟩
      · intro hnone
        have hdd : dd0 = none := hnone
        subst hdd
        exact get_datfile_nodir_noftp fs year n field dt rp hrp
      · intro d lp hsome hlp hread
        have hdd : dd0 = some d := hsome
        subst hdd
        exact get_datfile_miss_noftp d fs year n field dt rp lp hrp hlp hread
      · intro d lp c hsome hlp hread
        have hdd : dd0 = some d := hsome
        subst hdd
        exact get_datfile_hit d none fs year n field dt rp lp c hrp hlp hread
  · intro dd g' hg'
    unfold FileGrabber.init at hg'
    cases hv : verify_datadir fs env dd with
    | error e =>
      rw [hv] at hg'
      cases hg'
    | ok dd0 =>
      rw [hv] at hg'
      have hg2 : (⟨dd0, some net⟩ : FileGrabber) = g' := by
        have h3 : Except.ok (⟨dd0, if true = true then some net else none⟩ :
            FileGrabber) = .ok g' := hg'
        simpa using Except.ok.inj h3
      rw [← hg2]

/-- C10 witness: the default grabber with no environment directory,
and an `ftp_enabled=True` construction, for event 2015 BLG-0001. -/
theorem C10_ftp_disabled_witness :
    remote_filepath 2015 1 "BLG" "phot"
      = .ok "/ogle/ogle4/ews/2015/BLG-0001/phot.dat" ∧
    (∀ g, event_default_grabber ⟨[], []⟩ none (fun _ => []) = .ok g →
      g.ftpclient = none ∧
      (g.datadir = none →
        get_datfile g ⟨[], []⟩ 2015 1 "BLG" "phot" = .error .attributeError) ∧
      (∀ d lp, g.datadir = some d →
        local_filepath d 2015 1 "BLG" "phot" = .ok lp →
        FS.read ⟨[], []⟩ lp = none →
        get_datfile g ⟨[], []⟩ 2015 1 "BLG" "phot" = .error .attributeError) ∧
      (∀ d lp c, g.datadir = some d →
        local_filepath d 2015 1 "BLG" "phot" = .ok lp →
        FS.read ⟨[], []⟩ lp = some c →
        get_datfile g ⟨[], []⟩ 2015 1 "BLG" "phot" = .ok (pyStrip c, []))) ∧
    (∀ dd g', FileGrabber.init ⟨[], []⟩ none (fun _ => []) dd true = .ok g' →
      g'.ftpclient = some (fun _ => [])) :=
  ⟨by decide,
   (C10_ftp_disabled ⟨[], []⟩ none (fun _ => []) 2015 1 "BLG" "phot"
      "/ogle/ogle4/ews/2015/BLG-0001/phot.dat" (by decide)).1,
   (C10_ftp_disabled ⟨[], []⟩ none (fun _ => []) 2015 1 "BLG" "phot"
      "/ogle/ogle4/ews/2015/BLG-0001/phot.dat" (by decide)).2⟩
